import Mathlib

/-!
Verification of the core access layer of `transparent-classroom-photos-grabber-rs`.

The Rust sources (`src/client.rs`, `src/cache.rs`, `src/error.rs`) are shallowly
embedded below.  Network I/O is modelled as a function from URL to either a
transport-error message or a `(status, body)` pair; the filesystem is modelled
as an explicit store of directories and files; external string parsers
(serde_json's string-to-tree step, scraper's HTML-fragment text extraction)
are abstracted as parameters, while everything the repository itself computes
is embedded as executable Lean definitions.
-/

deriving instance DecidableEq for Except

namespace TCGrabber

/-- `AppError` from `src/error.rs`.  The `Config`/`Env`/`Io` variants wrap
foreign error types; only the message-carrying shape matters here, so each
variant carries its display string. -/
inductive AppError where
  | config (msg : String)
  | env (msg : String)
  | io (msg : String)
  | parse (msg : String)
  | generic (msg : String)
deriving DecidableEq, Repr

/-- `Post` from `src/client.rs` (field `photo_urls` keeps its source name). -/
structure Post where
  id : String
  title : String
  author : String
  date : String
  url : String
  photo_urls : List String
deriving DecidableEq, Repr

/-- The configuration fields consumed by `client.rs` (from `src/config.rs`).
`school_lat`/`school_lng` are `f64` in the source and appear only inside
formatted metadata text, so they are modelled by their display strings. -/
structure Config where
  email : String
  password : String
  school_id : Nat
  child_id : Nat
  school_lat : String
  school_lng : String
  school_keywords : String
deriving DecidableEq, Repr

/-- Substring test on character lists (support for `str::contains`). -/
def listContainsSub (sub : List Char) : List Char → Bool
  | [] => sub.isPrefixOf []
  | c :: rest => sub.isPrefixOf (c :: rest) || listContainsSub sub rest

/-- Rust's `str::contains(pattern)` for string patterns. -/
def strContains (s pat : String) : Bool :=
  listContainsSub pat.toList s.toList

/-- Rust's `str::starts_with` (over the character list, so that concrete
instances evaluate). -/
def strStartsWith (s pre : String) : Bool :=
  pre.toList.isPrefixOf s.toList

/-- Rust's `str::trim`: strip leading and trailing whitespace. -/
def strTrim (s : String) : String :=
  ⟨((s.toList.dropWhile Char.isWhitespace).reverse.dropWhile
    Char.isWhitespace).reverse⟩

/-- The prefix of a character list before the first occurrence of a
(non-empty) pattern; the whole list when the pattern does not occur. -/
def splitHeadList (pat : List Char) : List Char → List Char
  | [] => []
  | c :: rest =>
    if pat.isPrefixOf (c :: rest) then [] else c :: splitHeadList pat rest

/-- Rust's `base_url.split("/schools").next().unwrap_or(default)`:
the prefix of the string before the first occurrence of `"/schools"`
(the whole string when the pattern does not occur; the source's `split`
always yields at least one item, so the `unwrap_or` default is dead). -/
def splitHead (s pat : String) : String :=
  ⟨splitHeadList pat.toList s.toList⟩

/-- `Vec::join(" ")` from the Rust source (used on collected text nodes). -/
def joinSpace : List String → String
  | [] => ""
  | [s] => s
  | s :: rest => s ++ " " ++ joinSpace rest

/-- `reqwest::StatusCode::is_success`: true for 200..=299. -/
def isSuccessStatus (status : Nat) : Bool :=
  200 ≤ status && status < 300

/-- The network, modelled as a map from URL to either a transport-error
message (connection failure) or a `(status, body)` response. -/
def Net : Type := String → Except String (Nat × String)

/-- `Result::or` from Rust: keeps `self` when it is `Ok`, otherwise
returns the second result (used at `client.rs:130`). -/
def resultOr {ε α : Type} (a b : Except ε α) : Except ε α :=
  match a with
  | .ok v => .ok v
  | .error _ => b

/-- `is_mock_server` test used in `get_posts` and `should_use_mock_mode`. -/
def isMockServer (base_url : String) : Bool :=
  strStartsWith base_url "http://127.0.0.1" || strStartsWith base_url "http://localhost"

/-- `has_timeout_error` closure inside `should_use_mock_mode`
(`client.rs:1276-1282`). -/
def hasTimeoutError (e : Except AppError Unit) : Bool :=
  match e with
  | .error (.generic msg) =>
      strContains msg "timeout" || strContains msg "408" || strContains msg "Timeout"
  | _ => false

/-- `has_malformed_response` closure inside `should_use_mock_mode`
(`client.rs:1284-1293`). -/
def hasMalformedResponse (e : Except AppError Unit) : Bool :=
  match e with
  | .error (.parse msg) =>
      strContains msg "Could not find sign-in form"
        || (strContains msg "malformed" && !strContains msg "Could not find CSRF token")
  | _ => false

/-- `should_use_mock_mode` (`client.rs:1263-1307`): fallback mode is only
eligible on a loopback/test host and never for timeout or
malformed-response failures. -/
def should_use_mock_mode (base_url : String)
    (api_error web_error : Except AppError Unit) : Bool :=
  if !isMockServer base_url then
    false
  else if hasTimeoutError api_error || hasTimeoutError web_error
      || hasMalformedResponse api_error || hasMalformedResponse web_error then
    false
  else
    true

/-- Observable control-flow events of one `login` run, used to state the
temporal cascade properties. -/
inductive AuthEvent where
  | apiAttempt
  | webAttempt
  | mockEnter
deriving DecidableEq, Repr

/-- `login` (`client.rs:103-132`), parametrised by the outcomes of its two
effectful strategies (`login_api_basic_auth`, `login_web_form`).  The second
component records which strategies were attempted and whether mock mode was
entered, in order; the web strategy is only run when the API probe failed,
exactly as in the source.  On double failure with mock mode ineligible the
source returns `web_result.or(api_result)`. -/
def login (base_url : String) (api_result web_result : Except AppError Unit) :
    Except AppError Unit × List AuthEvent :=
  match api_result with
  | .ok () => (.ok (), [.apiAttempt])
  | .error _ =>
    match web_result with
    | .ok () => (.ok (), [.apiAttempt, .webAttempt])
    | .error _ =>
      if should_use_mock_mode base_url api_result web_result then
        (.ok (), [.apiAttempt, .webAttempt, .mockEnter])
      else
        (resultOr web_result api_result, [.apiAttempt, .webAttempt])

/-- `crawl_all_posts` (`client.rs:500-529`), with the page fetches modelled
by a total function `pages` (the claim concerns runs where every fetch up to
the first empty page succeeds) and an explicit fuel argument bounding the
number of loop iterations; the source loop starts at page 1, accumulates
non-empty pages and stops at the first empty one. -/
def crawlAllPostsFuel (pages : Nat → List Post) : Nat → Nat → List Post
  | 0, _ => []
  | fuel + 1, page =>
    let posts := pages page
    if posts.isEmpty then [] else posts ++ crawlAllPostsFuel pages fuel (page + 1)

/-- `CacheData` from `src/cache.rs`; `SystemTime` is modelled as seconds
since the epoch. -/
structure CacheData (α : Type) where
  timestamp : Nat
  payload : α
deriving DecidableEq, Repr

/-- `read_cache` (`cache.rs:48-107`).  The disk state at the cache path is
`none` for a missing file, `some (.error e)` for a file that fails to open or
parse (the source returns that error), and `some (.ok entry)` for a
well-formed entry.  `SystemTime::duration_since` fails when the stored
timestamp is later than `now`; the source maps that case to `Ok(None)`. -/
def read_cache {α : Type} (disk : Option (Except AppError (CacheData α)))
    (now max_age_secs : Nat) : Except AppError (Option (CacheData α)) :=
  match disk with
  | none => .ok none
  | some (.error e) => .error e
  | some (.ok cache_data) =>
    if cache_data.timestamp ≤ now then
      let age := now - cache_data.timestamp
      if age > max_age_secs then .ok none else .ok (some cache_data)
    else
      .ok none

/-- `write_cache` (`cache.rs:112-162`): the document written to disk, which
always carries the current time as its timestamp (directory creation and
serialization are not failure points of the model). -/
def write_cache {α : Type} (now : Nat) (data : α) : CacheData α :=
  { timestamp := now, payload := data }

/-- The filesystem state visible to the download manager: the set of
existing directories and the files with their contents.  A write prepends,
and lookups take the first (most recent) entry. -/
structure FS where
  dirs : List String
  files : List (String × String)
deriving DecidableEq, Repr

/-- `Path::exists` for files in the model. -/
def FS.fileExists (fs : FS) (path : String) : Bool :=
  (fs.files.lookup path).isSome

/-- `File::create` + `write_all` (and `fs::write`): create or overwrite. -/
def FS.writeFile (fs : FS) (path content : String) : FS :=
  { fs with files := (path, content) :: fs.files }

/-- `fs::create_dir_all` guarded by `!output_dir.exists()`. -/
def FS.createDirAll (fs : FS) (dir : String) : FS :=
  if dir ∈ fs.dirs then fs else { fs with dirs := dir :: fs.dirs }

/-- `Path::join` for the `output_dir.join(filename)` call sites. -/
def pathJoin (dir file : String) : String :=
  dir ++ "/" ++ file

/-- The filename stem derived in `download_photo` and
`photo_already_exists_for_index`: `"{id}_{index}_max"` when the post has
more than one photo URL, else `"{id}_max"`. -/
def photoStem (post : Post) (photo_index : Nat) : String :=
  if post.photo_urls.length > 1 then
    post.id ++ "_" ++ toString photo_index ++ "_max"
  else
    post.id ++ "_max"

/-- The derived photo filename (`client.rs:1010-1014` and `1087-1091`). -/
def photoFilename (post : Post) (photo_index : Nat) : String :=
  photoStem post photo_index ++ ".jpg"

/-- `photo_already_exists_for_index` (`client.rs:1003-1027`). -/
def photo_already_exists_for_index (post : Post) (photo_index : Nat)
    (output_dir : String) (fs : FS) : Option String :=
  let filename := photoFilename post photo_index
  let expected_path := pathJoin output_dir filename
  if fs.fileExists expected_path then some expected_path else none

/-- The sidecar metadata text written by `embed_metadata`
(`client.rs:1143-1153`). -/
def metadataContent (config : Config) (post : Post) : String :=
  "Title: " ++ post.title ++ "\nAuthor: " ++ post.author ++ "\nDate: "
    ++ post.date ++ "\nURL: " ++ post.url ++ "\nPost ID: " ++ post.id
    ++ "\nSchool Location: " ++ config.school_lat ++ ", " ++ config.school_lng
    ++ " (" ++ config.school_keywords ++ ")\n"

/-- `embed_metadata` (`client.rs:1128-1159`).  Setting file timestamps from
the parsed post date only touches modification times, which the `FS` model
does not track; the observable effect is the sidecar metadata file.  The
source derives the metadata path as `photo_path.with_extension("metadata.txt")`,
replacing the `.jpg` extension of the derived filename; the model builds the
same string from the shared stem. -/
def embed_metadata (config : Config) (post : Post) (photo_index : Nat)
    (output_dir : String) (fs : FS) : FS :=
  fs.writeFile (pathJoin output_dir (photoStem post photo_index ++ ".metadata.txt"))
    (metadataContent config post)

/-- Result of one `download_photo` call: the returned value, the filesystem
after the call, and how many network fetches the call performed. -/
structure DownloadOutcome where
  result : Except AppError String
  fs : FS
  fetches : Nat
deriving DecidableEq, Repr

/-- `download_photo` (`client.rs:1040-1125`): validate the index, create the
output directory, skip the fetch when the derived file already exists,
otherwise fetch the bytes, write them, and write the sidecar metadata. -/
def download_photo (net : Net) (config : Config) (post : Post)
    (photo_index : Nat) (output_dir : String) (fs : FS) : DownloadOutcome :=
  if post.photo_urls.isEmpty then
    ⟨.error (.generic ("Post " ++ post.id ++ " has no photos to download")), fs, 0⟩
  else if post.photo_urls.length ≤ photo_index then
    ⟨.error (.generic ("Photo index " ++ toString photo_index
      ++ " out of range for post with " ++ toString post.photo_urls.length
      ++ " photos")), fs, 0⟩
  else
    let fs := fs.createDirAll output_dir
    match photo_already_exists_for_index post photo_index output_dir fs with
    | some existing_path => ⟨.ok existing_path, fs, 0⟩
    | none =>
      let photo_url := post.photo_urls.getD photo_index ""
      let output_path := pathJoin output_dir (photoFilename post photo_index)
      match net photo_url with
      | .error e => ⟨.error (.generic ("Failed to download photo: " ++ e)), fs, 1⟩
      | .ok (status, body) =>
        if !isSuccessStatus status then
          ⟨.error (.generic ("Failed to download photo. Status: " ++ toString status)),
            fs, 1⟩
        else
          let fs := fs.writeFile output_path body
          let fs := embed_metadata config post photo_index output_dir fs
          ⟨.ok output_path, fs, 1⟩

/-- Result of `download_all_photos`: the returned value and the filesystem
after the call. -/
structure DownloadAllOutcome where
  result : Except AppError (List String)
  fs : FS
deriving DecidableEq, Repr

/-- `download_all_photos` (`client.rs:1228-1258`): empty posts yield an
empty list; otherwise every index is tried in order, successes are
collected, and failures are logged and skipped. -/
def download_all_photos (net : Net) (config : Config) (post : Post)
    (output_dir : String) (fs : FS) : DownloadAllOutcome :=
  if post.photo_urls.isEmpty then
    ⟨.ok [], fs⟩
  else
    let fin := (List.range post.photo_urls.length).foldl
      (fun (st : List String × FS) i =>
        let out := download_photo net config post i output_dir st.2
        match out.result with
        | .ok path => (st.1 ++ [path], out.fs)
        | .error _ => (st.1, out.fs))
      ([], fs)
    ⟨.ok fin.1, fin.2⟩

/-- The sequence of per-index `download_photo` results with the filesystem
threaded through the calls, used to state which downloads succeeded. -/
def downloadResultsTrace (net : Net) (config : Config) (post : Post)
    (output_dir : String) : List Nat → FS → List (Except AppError String)
  | [], _ => []
  | i :: rest, fs =>
    let out := download_photo net config post i output_dir fs
    out.result :: downloadResultsTrace net config post output_dir rest out.fs

/-- The successful paths of a result sequence, in order. -/
def okPaths (results : List (Except AppError String)) : List String :=
  results.filterMap (fun r => match r with | .ok p => some p | .error _ => none)

/-- `serde_json::Value`.  Numbers are modelled as integers: every numeric
field the parser touches is an id handled through `as_u64`. -/
inductive Json where
  | null
  | bool (b : Bool)
  | num (n : Int)
  | str (s : String)
  | arr (items : List Json)
  | obj (fields : List (String × Json))

/-- `Value::get(key)`: field lookup, `None` on non-objects. -/
def Json.get : Json → String → Option Json
  | .obj fields, key => fields.lookup key
  | _, _ => none

/-- `Value::as_str`. -/
def Json.as_str : Json → Option String
  | .str s => some s
  | _ => none

/-- `Value::as_u64`: only non-negative integers qualify. -/
def Json.as_u64 : Json → Option Nat
  | .num n => if 0 ≤ n then some n.toNat else none
  | _ => none

/-- `Value::as_array`. -/
def Json.as_array : Json → Option (List Json)
  | .arr items => some items
  | _ => none

/-- `Option::or_else` as used in the field-fallback chains: first *present*
value wins, even when it later fails `as_str`. -/
def oor {α : Type} (a b : Option α) : Option α :=
  match a with
  | some v => some v
  | none => b

/-- Locating the post array (`client.rs:748-762`): the document root, else
the `posts` key, else the `data` key; a present key that is not an array is
a parse error, and absence of all three is a parse error. -/
def findPostsArray (json_value : Json) : Except AppError (List Json) :=
  match json_value with
  | .arr items => .ok items
  | _ =>
    match json_value.get "posts" with
    | some posts =>
      match posts.as_array with
      | some items => .ok items
      | none => .error (.parse "Posts field is not an array")
    | none =>
      match json_value.get "data" with
      | some data =>
        match data.as_array with
        | some items => .ok items
        | none => .error (.parse "Data field is not an array")
      | none => .error (.parse "Could not find posts array in JSON response")

/-- `id` extraction (`client.rs:772-781`): a string field, else a
non-negative number stringified, else the synthesized `post_<index>`. -/
def parseJsonPostId (index : Nat) (post_obj : Json) : String :=
  ((post_obj.get "id").bind
    (fun v => oor v.as_str (v.as_u64.map toString))).getD ("post_" ++ toString index)

/-- `title` extraction (`client.rs:784-806`).  `fragText` abstracts
scraper's `Html::parse_document(html)` text collection joined with spaces
(the source trims its output before use). -/
def parseJsonPostTitle (fragText : String → String) (post_obj : Json) : String :=
  match (post_obj.get "html").bind Json.as_str with
  | some html =>
    let text := fragText html
    if (strTrim text).isEmpty then
      (((post_obj.get "normalized_text").bind Json.as_str).getD "Untitled Post")
    else
      strTrim text
  | none =>
    ((oor (oor (oor (post_obj.get "normalized_text") (post_obj.get "title"))
      (post_obj.get "text")) (post_obj.get "content")).bind Json.as_str).getD
      "Untitled Post"

/-- `author` extraction (`client.rs:809-826`). -/
def parseJsonPostAuthor (fragText : String → String) (post_obj : Json) : String :=
  match (post_obj.get "author").bind Json.as_str with
  | some author_html =>
    let text := fragText author_html
    if (strTrim text).isEmpty then "Unknown Author" else strTrim text
  | none =>
    ((oor (post_obj.get "author_name") (post_obj.get "user")).bind
      Json.as_str).getD "Unknown Author"

/-- `date` extraction (`client.rs:828-834`). -/
def parseJsonPostDate (post_obj : Json) : String :=
  ((oor (oor (post_obj.get "date") (post_obj.get "created_at"))
    (post_obj.get "timestamp")).bind Json.as_str).getD "Unknown Date"

/-- `url` extraction (`client.rs:836-841`). -/
def parseJsonPostUrl (post_obj : Json) : String :=
  ((oor (post_obj.get "url") (post_obj.get "link")).bind Json.as_str).getD ""

/-- A `photos`/`images` array entry: a bare string, or an object with a
`url` field (`client.rs:860-878`). -/
def photoEntryUrl (photo : Json) : Option String :=
  oor photo.as_str ((photo.get "url").bind Json.as_str)

/-- Photo-URL extraction (`client.rs:843-878`): a non-empty
`original_photo_url` wins over `photo_url` (the `else if` skips `photo_url`
whenever the `original_photo_url` key is a string, even an empty one), then
every entry of a `photos` array — or, failing that, an `images` array — is
appended. -/
def parseJsonPostPhotoUrls (post_obj : Json) : List String :=
  let first :=
    match (post_obj.get "original_photo_url").bind Json.as_str with
    | some original_photo_url =>
      if original_photo_url.isEmpty then [] else [original_photo_url]
    | none =>
      match (post_obj.get "photo_url").bind Json.as_str with
      | some photo_url => if photo_url.isEmpty then [] else [photo_url]
      | none => []
  let rest :=
    match (post_obj.get "photos").bind Json.as_array with
    | some photos => photos.filterMap photoEntryUrl
    | none =>
      match (post_obj.get "images").bind Json.as_array with
      | some images => images.filterMap photoEntryUrl
      | none => []
  first ++ rest

/-- One element of the posts array (`client.rs:766-889`): non-objects are
parse errors, otherwise the fields above are assembled into a `Post`. -/
def parseJsonPost (fragText : String → String) (index : Nat) (post_value : Json) :
    Except AppError Post :=
  match post_value with
  | .obj _ =>
    .ok { id := parseJsonPostId index post_value
          title := parseJsonPostTitle fragText post_value
          author := parseJsonPostAuthor fragText post_value
          date := parseJsonPostDate post_value
          url := parseJsonPostUrl post_value
          photo_urls := parseJsonPostPhotoUrls post_value }
  | _ => .error (.parse ("Post " ++ toString index ++ " is not a valid object"))

/-- The `for (i, post_value) in posts_array.iter().enumerate()` loop of
`parse_posts_json`: posts are accumulated in order and the first per-post
error aborts the whole parse. -/
def parseJsonPostsLoop (fragText : String → String) :
    Nat → List Json → Except AppError (List Post)
  | _, [] => .ok []
  | i, v :: rest =>
    match parseJsonPost fragText i v with
    | .error e => .error e
    | .ok post =>
      match parseJsonPostsLoop fragText (i + 1) rest with
      | .error e => .error e
      | .ok posts => .ok (post :: posts)

/-- `parse_posts_json` (`client.rs:728-899`) from the parsed JSON tree on;
the serde string-to-tree step is abstracted at the `get_posts` call site. -/
def parse_posts_json (fragText : String → String) (json_value : Json) :
    Except AppError (List Post) :=
  match findPostsArray json_value with
  | .error e => .error e
  | .ok posts_array => parseJsonPostsLoop fragText 0 posts_array

/-- A parsed HTML document node (scraper's DOM restricted to what the
selectors in `client.rs` inspect: tag name, the classes from the `class`
attribute, the remaining attributes, children, and text). -/
inductive Node where
  | elem (tag : String) (classes : List String) (attrs : List (String × String))
      (children : List Node)
  | text (s : String)

/-- The child nodes of a node. -/
def Node.childNodes : Node → List Node
  | .elem _ _ _ children => children
  | .text _ => []

mutual

/-- The element nodes of a subtree in document (pre-)order, the root
element included. -/
def Node.preorder : Node → List Node
  | .text _ => []
  | .elem tag classes attrs children =>
    .elem tag classes attrs children :: Node.preorderList children

/-- `Node.preorder` over a forest. -/
def Node.preorderList : List Node → List Node
  | [] => []
  | n :: rest => n.preorder ++ Node.preorderList rest

end

mutual

/-- The text nodes of a subtree in document order
(`ElementRef::text` collects exactly these for an element's children). -/
def Node.texts : Node → List String
  | .text s => [s]
  | .elem _ _ _ children => Node.textsList children

/-- `Node.texts` over a forest. -/
def Node.textsList : List Node → List String
  | [] => []
  | n :: rest => n.texts ++ Node.textsList rest

end

/-- Attribute lookup on an element (`Element::attr`). -/
def Node.attr : Node → String → Option String
  | .elem _ _ attrs _, name => attrs.lookup name
  | .text _, _ => none

/-- A simple CSS selector: optional tag name, required classes, and
required attribute values — the shapes `client.rs` uses (`form`,
`input[name="..."]`, `meta[name="csrf-token"]`, `.observation`,
`a.observation-link`, `img`, `a`). -/
structure Selector where
  tag : Option String
  classes : List String
  attrs : List (String × String)

/-- Whether an element matches a simple selector. -/
def matchesSelector (n : Node) (sel : Selector) : Bool :=
  match n with
  | .text _ => false
  | .elem tag classes attrs _ =>
    (match sel.tag with | some t => t == tag | none => true)
      && sel.classes.all (fun c => classes.contains c)
      && sel.attrs.all (fun kv => attrs.lookup kv.1 == some kv.2)

/-- `Html::select` on a whole document: every element of the tree, in
document order. -/
def docSelect (document : Node) (sel : Selector) : List Node :=
  document.preorder.filter (fun n => matchesSelector n sel)

/-- `ElementRef::select`: the matching proper descendants of an element,
in document order. -/
def elemSelect (n : Node) (sel : Selector) : List Node :=
  (Node.preorderList n.childNodes).filter (fun m => matchesSelector m sel)

/-- A descendant-combinator selector `A B` scoped to an element (used for
`.observation-photo img`): the `B`-matching descendants of each
`A`-matching descendant.  This agrees with scraper whenever the
`A`-matching elements are not nested in one another, which holds for every
document considered here. -/
def elemSelectDescendant (n : Node) (selA selB : Selector) : List Node :=
  (elemSelect n selA).flatMap (fun a => elemSelect a selB)

def formSel : Selector := ⟨some "form", [], []⟩

def loginInputSel : Selector := ⟨some "input", [], [("name", "soul[login]")]⟩

def authTokenInputSel : Selector := ⟨some "input", [], [("name", "authenticity_token")]⟩

def csrfMetaSel : Selector := ⟨some "meta", [], [("name", "csrf-token")]⟩

def anchorSel : Selector := ⟨some "a", [], []⟩

def observationSel : Selector := ⟨none, ["observation"], []⟩

def observationTextSel : Selector := ⟨none, ["observation-text"], []⟩

def observationAuthorSel : Selector := ⟨none, ["observation-author"], []⟩

def observationDateSel : Selector := ⟨none, ["observation-date"], []⟩

def observationLinkSel : Selector := ⟨some "a", ["observation-link"], []⟩

def observationPhotoSel : Selector := ⟨none, ["observation-photo"], []⟩

def imgSel : Selector := ⟨some "img", [], []⟩

/-- `extract_csrf_token` (`client.rs:386-440`): the first form containing a
`soul[login]` input is located (scanning all forms); its first
`authenticity_token` input with a `value` wins; otherwise a
`meta[name="csrf-token"]` with `content`; otherwise the document's first
`authenticity_token` input with a `value`; otherwise an error that
distinguishes whether a sign-in form was found at all. -/
def extract_csrf_token (document : Node) : Except AppError String :=
  let forms := docSelect document formSel
  let signin_form := forms.find? (fun f => !(elemSelect f loginInputSel).isEmpty)
  let found_signin_form := signin_form.isSome
  let from_form : Option String :=
    signin_form.bind (fun f =>
      (elemSelect f authTokenInputSel).head?.bind (fun tok => tok.attr "value"))
  let from_meta : Option String :=
    (docSelect document csrfMetaSel).head?.bind (fun m => m.attr "content")
  let from_input : Option String :=
    (docSelect document authTokenInputSel).head?.bind (fun tok => tok.attr "value")
  match from_form with
  | some token => .ok token
  | none =>
    match from_meta with
    | some token => .ok token
    | none =>
      match from_input with
      | some token => .ok token
      | none =>
        if found_signin_form then
          .error (.parse "Could not find CSRF token in sign-in form")
        else
          .error (.parse "Could not find sign-in form in page")

/-- One `.observation` element parsed into a `Post`
(`client.rs:909-985`); `index` is the number of posts already parsed,
which the source uses for the synthesized id. -/
def parseObservation (base_url : String) (index : Nat) (post_element : Node) : Post :=
  let id := (post_element.attr "id").getD ("post_" ++ toString index)
  let title :=
    match (elemSelect post_element observationTextSel).head? with
    | some el => strTrim (joinSpace el.texts)
    | none => "Untitled Post"
  let author :=
    match (elemSelect post_element observationAuthorSel).head? with
    | some el => strTrim (joinSpace el.texts)
    | none => "Unknown Author"
  let date :=
    match (elemSelect post_element observationDateSel).head? with
    | some el => strTrim (joinSpace el.texts)
    | none => "Unknown Date"
  let url :=
    match (elemSelect post_element observationLinkSel).head? with
    | some el =>
      match el.attr "href" with
      | some href =>
        if strStartsWith href "http" then href
        else splitHead base_url "/schools" ++ href
      | none => ""
    | none => ""
  let photo_urls :=
    (elemSelectDescendant post_element observationPhotoSel imgSel).filterMap
      (fun photo_element =>
        (photo_element.attr "src").map (fun src =>
          if strStartsWith src "http" then src
          else
            let base_domain :=
              if strContains base_url "/schools" then splitHead base_url "/schools"
              else base_url
            base_domain ++ src))
  { id := id, title := title, author := author, date := date, url := url,
    photo_urls := photo_urls }

/-- The `for post_element in document.select(...)` loop of
`parse_posts_html`: each `.observation` element is parsed and pushed, so
the running index equals `posts.len()` at push time. -/
def parseHtmlPostsLoop (base_url : String) : Nat → List Node → List Post
  | _, [] => []
  | i, el :: rest =>
    parseObservation base_url i el :: parseHtmlPostsLoop base_url (i + 1) rest

/-- `parse_posts_html` (`client.rs:902-995`) from the parsed document on
(the scraper string-to-DOM step is abstracted at the `get_posts` call
site); `base_url` is the client's `self.base_url`, used to resolve relative
URLs.  An empty result is valid, never an error. -/
def parse_posts_html (base_url : String) (document : Node) :
    Except AppError (List Post) :=
  .ok (parseHtmlPostsLoop base_url 0 (docSelect document observationSel))

/-- The client fields `get_posts` reads. -/
structure Client where
  config : Config
  base_url : String

/-- `Vec::dedup` after sorting: collapse adjacent duplicates. -/
def dedupAdjacent : List String → List String
  | [] => []
  | [x] => [x]
  | x :: y :: rest =>
    if x == y then dedupAdjacent (y :: rest) else x :: dedupAdjacent (y :: rest)

/-- `discover_endpoints` (`client.rs:443-497`): fetch the school page,
collect every anchor href containing one of the fixed keywords (selecting
`a[href]` and reading the href is modelled as `filterMap` over anchors),
normalize to absolute URLs, sort and dedup.  `parseDoc` abstracts scraper's
string-to-DOM parse. -/
def discover_endpoints (net : Net) (parseDoc : String → Node) (base_url : String) :
    Except AppError (List String) :=
  match net base_url with
  | .error e => .error (.generic ("Failed to fetch school page: " ++ e))
  | .ok (status, html) =>
    if !isSuccessStatus status then
      .error (.generic ("Failed to fetch school page. Status: " ++ toString status))
    else
      let hrefs := (docSelect (parseDoc html) anchorSel).filterMap (fun a => a.attr "href")
      let keyword_hrefs := hrefs.filter (fun href =>
        strContains href "observation" || strContains href "event"
          || strContains href "photo" || strContains href "post"
          || strContains href "feed" || strContains href "timeline")
      let discovered_urls := keyword_hrefs.map (fun href =>
        if strStartsWith href "http" then href
        else if strStartsWith href "/" then "https://www.transparentclassroom.com" ++ href
        else base_url ++ "/" ++ href)
      .ok (dedupAdjacent (discovered_urls.mergeSort (fun a b => a ≤ b)))

/-- The primary URL of `get_posts` (`client.rs:547-567`). -/
def primaryUrl (client : Client) (page : Nat) : String :=
  if isMockServer client.base_url then
    if page == 0 then client.base_url ++ "/observations"
    else client.base_url ++ "/observations?page=" ++ toString page
  else
    if page ≤ 1 then
      "https://www.transparentclassroom.com/s/" ++ toString client.config.school_id
        ++ "/children/" ++ toString client.config.child_id ++ "/posts.json?locale=en"
    else
      "https://www.transparentclassroom.com/s/" ++ toString client.config.school_id
        ++ "/children/" ++ toString client.config.child_id
        ++ "/posts.json?locale=en&page=" ++ toString page

/-- The ordered fallback URLs of `get_posts` (`client.rs:572-611`). -/
def fallbackUrls (client : Client) (page : Nat) : List String :=
  [ (if strContains client.base_url "/schools" then
      let root_domain := splitHead client.base_url "/schools"
      if page == 0 then root_domain ++ "/observations"
      else root_domain ++ "/observations?page=" ++ toString page
    else
      if page == 0 then client.base_url ++ "/observations"
      else client.base_url ++ "/observations?page=" ++ toString page),
    client.base_url ++ "/children/" ++ toString client.config.child_id ++ "/observations",
    client.base_url ++ "/api/v1/children/" ++ toString client.config.child_id ++ "/events",
    client.base_url ++ "/api/v1/children/" ++ toString client.config.child_id ++ "/photos",
    client.base_url ++ "/api/v1/events",
    client.base_url ++ "/dashboard",
    client.base_url ]

/-- `response.is_err() || !response.as_ref().unwrap().status().is_success()`. -/
def responseFailed (response : Except String (Nat × String)) : Bool :=
  match response with
  | .ok (status, _) => !isSuccessStatus status
  | .error _ => true

/-- The fallback loops of `get_posts` (`client.rs:627-649` and `655-675`):
each URL is fetched in turn and the first 2xx response replaces the current
one; when none succeeds the current response is kept. -/
def tryUrls (net : Net) (response : Except String (Nat × String)) :
    List String → Except String (Nat × String)
  | [] => response
  | url :: rest =>
    match net url with
    | .ok (status, body) =>
      if isSuccessStatus status then .ok (status, body)
      else tryUrls net response rest
    | .error _ => tryUrls net response rest

/-- The response `get_posts` ends up with (`client.rs:615-678`): the
primary URL, then the predefined fallbacks, then — when still failing — the
discovered endpoints; a failed discovery leaves the response unchanged. -/
def getPostsResponse (net : Net) (parseDoc : String → Node) (client : Client)
    (page : Nat) : Except String (Nat × String) :=
  let response :=
    match net (primaryUrl client page) with
    | .ok r => .ok r
    | .error e => .error ("Failed to fetch posts: " ++ e)
  if responseFailed response then
    let response := tryUrls net response (fallbackUrls client page)
    if responseFailed response then
      match discover_endpoints net parseDoc client.base_url with
      | .ok discovered_urls => tryUrls net response discovered_urls
      | .error _ => response
    else response
  else response

/-- `current_url` (`client.rs:680-692`): the primary URL on a successful
response, the *last* fallback URL on a received non-2xx response, and the
primary URL again when no response arrived. -/
def getPostsCurrentUrl (net : Net) (parseDoc : String → Node) (client : Client)
    (page : Nat) : String :=
  match getPostsResponse net parseDoc client page with
  | .ok (status, _) =>
    if isSuccessStatus status then primaryUrl client page
    else ((fallbackUrls client page).getLast?).getD (primaryUrl client page)
  | .error _ => primaryUrl client page

/-- `get_posts` (`client.rs:543-725`).  `parseJson` abstracts
`serde_json::from_str`, `parseDoc` abstracts `Html::parse_document`, and
`fragText` abstracts text extraction from embedded HTML fragments. -/
def get_posts (net : Net) (parseJson : String → Except String Json)
    (parseDoc : String → Node) (fragText : String → String)
    (client : Client) (page : Nat) : Except AppError (List Post) :=
  let response := getPostsResponse net parseDoc client page
  let current_url := getPostsCurrentUrl net parseDoc client page
  match response with
  | .ok (status, body) =>
    if isSuccessStatus status then
      if strContains current_url ".json" then
        match parseJson body with
        | .error e => .error (.parse ("Failed to parse JSON response: " ++ e))
        | .ok json_value => parse_posts_json fragText json_value
      else
        parse_posts_html client.base_url (parseDoc body)
    else
      .error (.generic ("Failed to fetch posts from Transparent Classroom. Status: "
        ++ toString status
        ++ ". This might indicate an authentication or permissions issue."))
  | .error _ =>
    .error (.generic ("Failed to connect to Transparent Classroom for fetching posts. "
      ++ "Please check your internet connection and try again."))

/-- All URLs `get_posts` may try, in the order it tries them: primary,
predefined fallbacks, then the discovered endpoints. -/
def candidateUrls (net : Net) (parseDoc : String → Node) (client : Client)
    (page : Nat) : List String :=
  primaryUrl client page ::
    (fallbackUrls client page
      ++ (match discover_endpoints net parseDoc client.base_url with
          | .ok urls => urls
          | .error _ => []))

/-- Whether a URL yields a 2xx response. -/
def urlSucceeds (net : Net) (url : String) : Bool :=
  match net url with
  | .ok (status, _) => isSuccessStatus status
  | .error _ => false

/-- The URL of the first successful (2xx) response in `get_posts`'s trying
order. -/
def firstSuccessUrl (net : Net) (parseDoc : String → Node) (client : Client)
    (page : Nat) : Option String :=
  (candidateUrls net parseDoc client page).find? (urlSucceeds net)

/-- A canonical JSON rendering of a logical post, following the spec's
field vocabulary for the JSON path: `id`, `title`, `author_name`, `date`,
`url`, and a `photos` array of bare URL strings. -/
def renderJsonPost (p : Post) : Json :=
  .obj [("id", .str p.id), ("title", .str p.title),
        ("author_name", .str p.author), ("date", .str p.date),
        ("url", .str p.url), ("photos", .arr (p.photo_urls.map Json.str))]

/-- A canonical JSON payload (root array) encoding a list of logical
posts. -/
def renderJsonPosts (ps : List Post) : Json :=
  .arr (ps.map renderJsonPost)

/-- An `img` element carrying a photo URL. -/
def imgNode (u : String) : Node :=
  .elem "img" [] [("src", u)] []

/-- An `.observation-photo` wrapper around one photo `img`. -/
def photoDivNode (u : String) : Node :=
  .elem "div" ["observation-photo"] [] [imgNode u]

/-- A canonical HTML rendering of a logical post, following the spec's
fixed class vocabulary: an `.observation` element with `id` attribute and
`.observation-text` / `.observation-author` / `.observation-date` /
`a.observation-link` / `.observation-photo img` children. -/
def renderHtmlPost (p : Post) : Node :=
  .elem "div" ["observation"] [("id", p.id)]
    ([.elem "div" ["observation-text"] [] [.text p.title],
      .elem "div" ["observation-author"] [] [.text p.author],
      .elem "div" ["observation-date"] [] [.text p.date],
      .elem "a" ["observation-link"] [("href", p.url)] []]
      ++ p.photo_urls.map photoDivNode)

/-- A canonical HTML document encoding a list of logical posts. -/
def renderHtmlPosts (ps : List Post) : Node :=
  .elem "html" [] [] (ps.map renderHtmlPost)

/-- A logical post both canonical renderings can faithfully carry: the
text fields are trim-invariant (the HTML path trims collected text) and all
URLs are absolute (the HTML path resolves relative URLs against the root
domain). -/
def wfPost (p : Post) : Bool :=
  strTrim p.title == p.title && strTrim p.author == p.author
    && strTrim p.date == p.date && strStartsWith p.url "http"
    && p.photo_urls.all (fun u => strStartsWith u "http")

/-- The CSRF-extraction procedure exactly as the claim words it: (a) a
*hidden* authenticity-token input inside a form that contains the
login-identifier field, scanning all forms; (b) a csrf-token meta tag;
(c) any standalone authenticity-token input anywhere; error messages
distinguished by whether a form with the login field exists. -/
def claimedCsrfExtraction (document : Node) : Except AppError String :=
  let login_forms := (docSelect document formSel).filter
    (fun f => !(elemSelect f loginInputSel).isEmpty)
  let hidden_from_form :=
    (login_forms.flatMap (fun f =>
      (elemSelect f authTokenInputSel).filter
        (fun tok => tok.attr "type" == some "hidden"))).head?.bind
      (fun tok => tok.attr "value")
  let from_meta :=
    (docSelect document csrfMetaSel).head?.bind (fun m => m.attr "content")
  let from_input :=
    ((docSelect document authTokenInputSel).filterMap
      (fun tok => tok.attr "value")).head?
  match oor (oor hidden_from_form from_meta) from_input with
  | some token => .ok token
  | none =>
    if !login_forms.isEmpty then
      .error (.parse "Could not find CSRF token in sign-in form")
    else
      .error (.parse "Could not find sign-in form in page")

/-- The claim amended to what the code does: in (a) the type of the token
input is not inspected and only the *first* form containing the login field
is searched, the token must carry a `value`; in (c) only the document's
first authenticity-token input is considered, and it must carry a `value`;
the error distinction is as claimed. -/
def amendedCsrfExtraction (document : Node) : Except AppError String :=
  let login_forms := (docSelect document formSel).filter
    (fun f => !(elemSelect f loginInputSel).isEmpty)
  let from_form :=
    login_forms.head?.bind (fun f =>
      (elemSelect f authTokenInputSel).head?.bind (fun tok => tok.attr "value"))
  let from_meta :=
    (docSelect document csrfMetaSel).head?.bind (fun m => m.attr "content")
  let from_input :=
    (docSelect document authTokenInputSel).head?.bind (fun tok => tok.attr "value")
  match oor (oor from_form from_meta) from_input with
  | some token => .ok token
  | none =>
    if !login_forms.isEmpty then
      .error (.parse "Could not find CSRF token in sign-in form")
    else
      .error (.parse "Could not find sign-in form in page")

/-- A sign-in page whose login form carries a *non-hidden*
authenticity-token input while a csrf-token meta tag is also present. -/
def exSigninDoc : Node :=
  .elem "html" [] []
    [.elem "head" [] []
      [.elem "meta" [] [("name", "csrf-token"), ("content", "META_TOKEN")] []],
     .elem "body" [] []
      [.elem "form" [] [("action", "/souls/sign_in")]
        [.elem "input" [] [("name", "soul[login]"), ("type", "text")] [],
         .elem "input" []
           [("name", "authenticity_token"), ("type", "text"),
            ("value", "FORM_TOKEN")] []]]]

/-- A concrete client against the production host (school 1, child 2). -/
def exClient : Client :=
  { config := { email := "user@example.com", password := "pw", school_id := 1,
                child_id := 2, school_lat := "1.0", school_lng := "2.0",
                school_keywords := "school" },
    base_url := "https://www.transparentclassroom.com/schools/1" }

/-- The first predefined fallback URL of `exClient` for page 1. -/
def exFallback1 : String :=
  "https://www.transparentclassroom.com/observations?page=1"

/-- A network where the primary URL answers 404 and the first fallback
succeeds with an HTML body. -/
def exNet : Net := fun url =>
  if url = exFallback1 then .ok (200, "<html></html>") else .ok (404, "")

/-- A degenerate DOM parse used where the document content is irrelevant. -/
def exParseDoc : String → Node := fun _ => .elem "html" [] [] []

/-- A JSON string parse that always fails (the fallback body is HTML). -/
def exParseJson : String → Except String Json := fun _ => .error "expected value"

/-- A fragment-text extraction used where no HTML fragments occur. -/
def exFragText : String → String := fun s => s

/-- A two-photo post for download scenarios. -/
def exDlPost : Post :=
  { id := "P", title := "Title", author := "Author", date := "2023-01-15",
    url := "http://x/post", photo_urls := ["http://x/1.jpg", "http://x/2.jpg"] }

/-- A post with no photos. -/
def exEmptyPost : Post :=
  { id := "E", title := "Title", author := "Author", date := "2023-01-15",
    url := "http://x/post", photo_urls := [] }

/-- A network where the first photo downloads and the second answers 404. -/
def exDlNet : Net := fun url =>
  if url = "http://x/1.jpg" then .ok (200, "IMG1") else .ok (404, "")

/-! ## Theorems -/

lemma crawlAllPostsFuel_eq (pages : Nat → List Post) (k : Nat)
    (hempty : pages k = [])
    (hmin : ∀ j, j < k → 1 ≤ j → pages j ≠ []) :
    ∀ fuel p, 1 ≤ p → p ≤ k → k ≤ fuel + p →
      crawlAllPostsFuel pages fuel p = ((List.range' p (k - p)).map pages).flatten := by
  intro fuel
  induction fuel with
  | zero =>
    intro p _ hpk hkf
    have hpe : p = k := by omega
    subst hpe
    simp [crawlAllPostsFuel, Nat.sub_self]
  | succ fuel ih =>
    intro p hp1 hpk hkf
    by_cases hpk' : p = k
    · subst hpk'
      simp [crawlAllPostsFuel, hempty]
    · have hlt : p < k := lt_of_le_of_ne hpk hpk'
      have hne : pages p ≠ [] := hmin p hlt hp1
      have hje : (pages p).isEmpty = false := by
        cases hpp : pages p with
        | nil => exact absurd hpp hne
        | cons a l => rfl
      have hkp : k - p = (k - (p + 1)) + 1 := by omega
      rw [crawlAllPostsFuel]
      simp only [hje, Bool.false_eq_true, if_false]
      rw [ih (p + 1) (by omega) (by omega) (by omega), hkp, List.range'_succ]
      simp

/-- C3: for any page sequence that eventually yields an empty page, the
crawl loop starting at page 1 terminates (its fuel-indexed model is
constant once the fuel reaches the first empty page) and returns the
concatenation, in page order, of the non-empty pages before that first
empty page. -/
theorem crawl_all_posts_terminates (pages : Nat → List Post) (k : Nat)
    (hk1 : 1 ≤ k) (hempty : pages k = [])
    (hmin : ∀ j, j < k → 1 ≤ j → pages j ≠ [])
    (fuel : Nat) (hfuel : k ≤ fuel) :
    crawlAllPostsFuel pages fuel 1 = ((List.range' 1 (k - 1)).map pages).flatten :=
  crawlAllPostsFuel_eq pages k hempty hmin fuel 1 le_rfl hk1 (by omega)

/-- Witness for `crawl_all_posts_terminates`: two non-empty pages followed
by an empty page 3. -/
theorem crawl_all_posts_terminates_witness :
    crawlAllPostsFuel
      (fun p => if p = 1 then [⟨"a", "t", "au", "d", "u", []⟩]
        else if p = 2 then [⟨"b", "t", "au", "d", "u", []⟩] else []) 5 1
      = [⟨"a", "t", "au", "d", "u", []⟩, ⟨"b", "t", "au", "d", "u", []⟩] :=
  (crawl_all_posts_terminates
    (fun p => if p = 1 then [⟨"a", "t", "au", "d", "u", []⟩]
      else if p = 2 then [⟨"b", "t", "au", "d", "u", []⟩] else [])
    3 (by decide) (by decide) (by decide) 5 (by decide)).trans (by decide)

/-- C4: in every `login` run, success of the API Basic-Auth probe means
the web-form strategy is never attempted, and failure of the API probe
followed by web-form success means mock-mode fallback is never entered. -/
theorem login_auth_cascade (base_url : String) (api web : Except AppError Unit) :
    (api = .ok () → AuthEvent.webAttempt ∉ (login base_url api web).2)
  ∧ (api ≠ .ok () → web = .ok () → AuthEvent.mockEnter ∉ (login base_url api web).2) := by
  constructor
  · intro h
    subst h
    simp [login]
  · intro hne hw
    cases api with
    | ok u => cases u; exact absurd rfl hne
    | error e =>
      subst hw
      simp [login]

/-- Witness for `login_auth_cascade`: both implications discharged at
concrete strategy outcomes. -/
theorem login_auth_cascade_witness :
    (AuthEvent.webAttempt ∉
      (login "https://www.transparentclassroom.com/schools/1" (.ok ())
        (.error (.generic "web failed"))).2)
  ∧ (AuthEvent.mockEnter ∉
      (login "https://www.transparentclassroom.com/schools/1"
        (.error (.generic "api failed")) (.ok ())).2) :=
  ⟨(login_auth_cascade "https://www.transparentclassroom.com/schools/1" (.ok ())
      (.error (.generic "web failed"))).1 rfl,
   (login_auth_cascade "https://www.transparentclassroom.com/schools/1"
      (.error (.generic "api failed")) (.ok ())).2 (by decide) rfl⟩

/-- C2 (code bug): when both strategies fail on a production host,
`login` returns the *API probe's* error, not the web-form error — Rust's
`web_result.or(api_result)` yields `api_result` whenever `web_result` is
`Err`, contradicting the source's own comment ("Return the web auth error
since it's usually more informative") and the spec. -/
theorem login_double_failure_returns_api_error :
    (login "https://www.transparentclassroom.com/schools/42"
        (.error (.generic "API authentication failed with status: 401 Unauthorized"))
        (.error (.generic "Login failed: Invalid email or password"))).1
      = .error (.generic "API authentication failed with status: 401 Unauthorized")
  ∧ ("API authentication failed with status: 401 Unauthorized"
      ≠ "Login failed: Invalid email or password") := by
  constructor
  · set_option maxRecDepth 8000 in decide
  · decide

/-- C7 counterexample: a well-formed entry whose timestamp lies in the
future (timestamp 10, now 5).  The claim's criterion `now − timestamp ≤
maxAge` holds (`5 − 10 = 0 ≤ 100`), yet `read_cache` returns `None`
because `SystemTime::duration_since` fails on future timestamps. -/
theorem read_cache_claim_counterexample :
    ¬ (read_cache (α := String) (some (.ok ⟨10, "posts"⟩)) 5 100
        = .ok (some ⟨10, "posts"⟩) ↔ 5 - 10 ≤ 100) := by
  decide

/-- C7 amended: for a well-formed entry, `read_cache` yields the payload
exactly when the timestamp is not in the future and its age is at most
`max_age_secs`, and `None` otherwise; a missing file yields `None`; and
`write_cache` always stamps the current time. -/
theorem read_cache_write_cache_spec {α : Type} (entry : CacheData α)
    (now max_age_secs : Nat) (data : α) :
    (read_cache (some (.ok entry)) now max_age_secs
      = .ok (if entry.timestamp ≤ now ∧ now - entry.timestamp ≤ max_age_secs
          then some entry else none))
  ∧ read_cache (α := α) none now max_age_secs = .ok none
  ∧ write_cache now data = ⟨now, data⟩ := by
  refine ⟨?_, rfl, rfl⟩
  have hstep : read_cache (some (.ok entry)) now max_age_secs
      = if entry.timestamp ≤ now then
          (if now - entry.timestamp > max_age_secs then .ok none
            else .ok (some entry))
        else .ok none := rfl
  rw [hstep]
  by_cases h1 : entry.timestamp ≤ now
  · by_cases h2 : now - entry.timestamp > max_age_secs
    · rw [if_pos h1, if_pos h2, if_neg (by omega)]
    · rw [if_pos h1, if_neg h2, if_pos (by omega)]
  · rw [if_neg h1, if_neg (by omega)]

lemma mem_dirs_createDirAll (fs : FS) (dir : String) :
    dir ∈ (fs.createDirAll dir).dirs := by
  unfold FS.createDirAll
  split
  · assumption
  · exact List.mem_cons_self _ _

lemma createDirAll_eq_of_mem (fs : FS) (dir : String) (h : dir ∈ fs.dirs) :
    fs.createDirAll dir = fs := by
  unfold FS.createDirAll
  rw [if_pos h]

lemma createDirAll_idem (fs : FS) (dir : String) :
    (fs.createDirAll dir).createDirAll dir = fs.createDirAll dir :=
  createDirAll_eq_of_mem _ _ (mem_dirs_createDirAll fs dir)

lemma fileExists_after_two_writes (fs : FS) (a b c d : String) :
    ((fs.writeFile a b).writeFile c d).fileExists a = true := by
  unfold FS.fileExists FS.writeFile
  simp only [List.lookup]
  cases h : (a == c)
  · simp [h]
  · simp [h]

lemma photoFilename_eq (post : Post) (photo_index : Nat) :
    photoFilename post photo_index
      = if post.photo_urls.length > 1
        then post.id ++ "_" ++ toString photo_index ++ "_max.jpg"
        else post.id ++ "_max.jpg" := by
  have h1 : "_max" ++ ".jpg" = "_max.jpg" := by decide
  unfold photoFilename photoStem
  split
  · rw [String.append_assoc, h1]
  · rw [String.append_assoc, h1]

/-- C5: once one `download_photo` call has returned a path successfully,
a second call with the same post, index, and output directory performs no
network fetch, changes nothing on disk, and returns the same path. -/
theorem download_photo_idempotent (net : Net) (config : Config) (post : Post)
    (photo_index : Nat) (output_dir : String) (fs fs1 : FS) (p : String) (n : Nat)
    (h : download_photo net config post photo_index output_dir fs = ⟨.ok p, fs1, n⟩) :
    download_photo net config post photo_index output_dir fs1 = ⟨.ok p, fs1, 0⟩ := by
  unfold download_photo at h
  by_cases he : post.photo_urls.isEmpty
  · rw [if_pos he] at h
    simp at h
  · rw [if_neg he] at h
    by_cases hr : post.photo_urls.length ≤ photo_index
    · rw [if_pos hr] at h
      simp at h
    · rw [if_neg hr] at h
      cases hex : photo_already_exists_for_index post photo_index output_dir
          (fs.createDirAll output_dir) with
      | some q =>
        simp only [hex, DownloadOutcome.mk.injEq, Except.ok.injEq] at h
        obtain ⟨hq, hfs, -⟩ := h
        subst hq
        subst hfs
        unfold download_photo
        rw [if_neg he, if_neg hr]
        simp only [createDirAll_idem, hex]
      | none =>
        simp only [hex] at h
        cases hnet : net (post.photo_urls.getD photo_index "") with
        | error e =>
          simp only [hnet] at h
          simp at h
        | ok sb =>
          obtain ⟨status, body⟩ := sb
          simp only [hnet] at h
          cases hs : isSuccessStatus status with
          | false =>
            simp only [hs, Bool.not_false, if_true] at h
            simp at h
          | true =>
            simp only [hs, Bool.not_true, Bool.false_eq_true, if_false,
              DownloadOutcome.mk.injEq, Except.ok.injEq] at h
            obtain ⟨hq, hfs, -⟩ := h
            subst hq
            subst hfs
            unfold download_photo
            rw [if_neg he, if_neg hr]
            have hmem : output_dir ∈ (embed_metadata config post photo_index output_dir
                ((fs.createDirAll output_dir).writeFile
                  (pathJoin output_dir (photoFilename post photo_index)) body)).dirs := by
              unfold embed_metadata FS.writeFile
              exact mem_dirs_createDirAll fs output_dir
            have hex2 : photo_already_exists_for_index post photo_index output_dir
                (embed_metadata config post photo_index output_dir
                  ((fs.createDirAll output_dir).writeFile
                    (pathJoin output_dir (photoFilename post photo_index)) body))
                = some (pathJoin output_dir (photoFilename post photo_index)) := by
              unfold photo_already_exists_for_index embed_metadata
              rw [if_pos (fileExists_after_two_writes _ _ _ _ _)]
            simp only [createDirAll_eq_of_mem _ _ hmem, hex2]

/-- Witness for `download_photo_idempotent`: the first call on an empty
filesystem downloads `P_0_max.jpg`; the second call returns the same path
with zero fetches. -/
theorem download_photo_idempotent_witness :
    download_photo exDlNet exClient.config exDlPost 0 "out"
        ((download_photo exDlNet exClient.config exDlPost 0 "out" ⟨[], []⟩).fs)
      = ⟨.ok "out/P_0_max.jpg",
          (download_photo exDlNet exClient.config exDlPost 0 "out" ⟨[], []⟩).fs, 0⟩ :=
  download_photo_idempotent exDlNet exClient.config exDlPost 0 "out" ⟨[], []⟩
    (download_photo exDlNet exClient.config exDlPost 0 "out" ⟨[], []⟩).fs
    "out/P_0_max.jpg"
    (download_photo exDlNet exClient.config exDlPost 0 "out" ⟨[], []⟩).fetches
    (by decide)

/-- C8: a successful `download_photo` returns the path derived as
`{postId}_{index}_max.jpg` for multi-photo posts and `{postId}_max.jpg`
for single-photo posts; an empty photo list or an out-of-range index yields
an error with the filesystem untouched and no fetch performed. -/
theorem download_photo_filename_and_range (net : Net) (config : Config)
    (post : Post) (photo_index : Nat) (output_dir : String) (fs : FS) :
    ((download_photo net config post photo_index output_dir fs).result.isOk = true →
      (download_photo net config post photo_index output_dir fs).result
        = .ok (pathJoin output_dir
            (if post.photo_urls.length > 1
              then post.id ++ "_" ++ toString photo_index ++ "_max.jpg"
              else post.id ++ "_max.jpg")))
  ∧ ((post.photo_urls.isEmpty = true ∨ post.photo_urls.length ≤ photo_index) →
      (∃ msg, (download_photo net config post photo_index output_dir fs).result
          = .error (.generic msg))
      ∧ (download_photo net config post photo_index output_dir fs).fs = fs
      ∧ (download_photo net config post photo_index output_dir fs).fetches = 0) := by
  rw [← photoFilename_eq]
  unfold download_photo
  by_cases he : post.photo_urls.isEmpty
  · rw [if_pos he]
    refine ⟨fun hok => ?_, fun _ => ⟨⟨_, rfl⟩, rfl, rfl⟩⟩
    simp [Except.isOk, Except.toBool] at hok
  · rw [if_neg he]
    by_cases hr : post.photo_urls.length ≤ photo_index
    · rw [if_pos hr]
      refine ⟨fun hok => ?_, fun _ => ⟨⟨_, rfl⟩, rfl, rfl⟩⟩
      simp [Except.isOk, Except.toBool] at hok
    · rw [if_neg hr]
      constructor
      · intro hok
        cases hex : photo_already_exists_for_index post photo_index output_dir
            (fs.createDirAll output_dir) with
        | some q =>
          have hq : q = pathJoin output_dir (photoFilename post photo_index) := by
            by_cases hf : (fs.createDirAll output_dir).fileExists
                (pathJoin output_dir (photoFilename post photo_index)) = true
            · unfold photo_already_exists_for_index at hex
              simp [hf] at hex
              exact hex.symm
            · unfold photo_already_exists_for_index at hex
              simp [hf] at hex
          simp only [hex, hq]
        | none =>
          simp only [hex] at hok ⊢
          cases hnet : net (post.photo_urls.getD photo_index "") with
          | error e =>
            simp only [hnet] at hok
            simp [Except.isOk, Except.toBool] at hok
          | ok sb =>
            obtain ⟨status, body⟩ := sb
            simp only [hnet] at hok ⊢
            cases hs : isSuccessStatus status with
            | false =>
              simp only [hs, Bool.not_false, if_true] at hok
              simp [Except.isOk, Except.toBool] at hok
            | true =>
              simp [hs]
      · intro habs
        rcases habs with habs | habs
        · exact absurd habs he
        · exact absurd habs hr

/-- Witness for `download_photo_filename_and_range`: the successful path of
photo 0 of the two-photo post carries the `_0_` index infix, and index 5 is
rejected without touching the filesystem. -/
theorem download_photo_filename_and_range_witness :
    ((download_photo exDlNet exClient.config exDlPost 0 "out" ⟨[], []⟩).result
      = .ok (pathJoin "out"
          (if exDlPost.photo_urls.length > 1
            then exDlPost.id ++ "_" ++ toString 0 ++ "_max.jpg"
            else exDlPost.id ++ "_max.jpg")))
  ∧ ((∃ msg, (download_photo exDlNet exClient.config exDlPost 5 "out" ⟨[], []⟩).result
        = .error (.generic msg))
      ∧ (download_photo exDlNet exClient.config exDlPost 5 "out" ⟨[], []⟩).fs = ⟨[], []⟩
      ∧ (download_photo exDlNet exClient.config exDlPost 5 "out" ⟨[], []⟩).fetches = 0) :=
  ⟨(download_photo_filename_and_range exDlNet exClient.config exDlPost 0 "out"
      ⟨[], []⟩).1 (by decide),
   (download_photo_filename_and_range exDlNet exClient.config exDlPost 5 "out"
      ⟨[], []⟩).2 (Or.inr (by decide))⟩

lemma downloadAll_foldl_eq_trace (net : Net) (config : Config) (post : Post)
    (output_dir : String) :
    ∀ (idxs : List Nat) (fs : FS) (acc : List String),
      (idxs.foldl
        (fun (st : List String × FS) i =>
          let out := download_photo net config post i output_dir st.2
          match out.result with
          | .ok path => (st.1 ++ [path], out.fs)
          | .error _ => (st.1, out.fs))
        (acc, fs)).1
      = acc ++ okPaths (downloadResultsTrace net config post output_dir idxs fs) := by
  intro idxs
  induction idxs with
  | nil =>
    intro fs acc
    simp [downloadResultsTrace, okPaths]
  | cons i rest ih =>
    intro fs acc
    rw [List.foldl_cons]
    cases hres : (download_photo net config post i output_dir fs).result with
    | ok path =>
      simp only [hres]
      rw [ih]
      simp [downloadResultsTrace, okPaths, hres]
    | error e =>
      simp only [hres]
      rw [ih]
      simp [downloadResultsTrace, okPaths, hres]

/-- C10: `download_all_photos` never returns an error — its value is
always `Ok` with exactly the paths of the per-index downloads that
succeeded, in index order (with the filesystem threaded through the calls);
for a post with no photos it returns `Ok []` even though `download_photo`
fails on that post at every index. -/
theorem download_all_photos_never_errors (net : Net) (config : Config)
    (post : Post) (output_dir : String) (fs : FS) :
    ((download_all_photos net config post output_dir fs).result
      = .ok (okPaths (downloadResultsTrace net config post output_dir
          (List.range post.photo_urls.length) fs)))
  ∧ (post.photo_urls = [] →
      (download_all_photos net config post output_dir fs).result = .ok []
      ∧ ∀ i, ∃ msg, (download_photo net config post i output_dir fs).result
          = .error (.generic msg)) := by
  constructor
  · unfold download_all_photos
    by_cases he : post.photo_urls.isEmpty
    · rw [if_pos he]
      have hlen : post.photo_urls.length = 0 := by
        cases hp : post.photo_urls with
        | nil => rfl
        | cons a l => rw [hp] at he; simp at he
      rw [hlen]
      simp [downloadResultsTrace, okPaths]
    · rw [if_neg he]
      simp only []
      rw [downloadAll_foldl_eq_trace]
      simp
  · intro hp
    have he : post.photo_urls.isEmpty = true := by rw [hp]; rfl
    constructor
    · unfold download_all_photos
      rw [if_pos he]
    · intro i
      unfold download_photo
      rw [if_pos he]
      exact ⟨_, rfl⟩

/-- Witness for `download_all_photos_never_errors`: the two-photo post with
one failing download yields `Ok` with just the succeeding path, and the
empty post yields `Ok []` while `download_photo` fails on it at index 0. -/
theorem download_all_photos_never_errors_witness :
    ((download_all_photos exDlNet exClient.config exDlPost "out" ⟨[], []⟩).result
      = .ok ["out/P_0_max.jpg"])
  ∧ ((download_all_photos exDlNet exClient.config exEmptyPost "out" ⟨[], []⟩).result
      = .ok [])
  ∧ (∃ msg, (download_photo exDlNet exClient.config exEmptyPost 0 "out" ⟨[], []⟩).result
      = .error (.generic msg)) :=
  ⟨((download_all_photos_never_errors exDlNet exClient.config exDlPost "out"
      ⟨[], []⟩).1).trans (by decide),
   ((download_all_photos_never_errors exDlNet exClient.config exEmptyPost "out"
      ⟨[], []⟩).2 rfl).1,
   ((download_all_photos_never_errors exDlNet exClient.config exEmptyPost "out"
      ⟨[], []⟩).2 rfl).2 0⟩

lemma responseFailed_net_false (net : Net) (u : String)
    (h : urlSucceeds net u = true) : responseFailed (net u) = false := by
  unfold urlSucceeds at h
  unfold responseFailed
  cases hn : net u with
  | error e =>
    simp only [hn] at h
    simp at h
  | ok sb =>
    obtain ⟨status, body⟩ := sb
    simp only [hn] at h
    simp [hn, h]

lemma tryUrls_none_succeeds (net : Net) (r : Except String (Nat × String)) :
    ∀ urls, (∀ u ∈ urls, urlSucceeds net u = false) → tryUrls net r urls = r := by
  intro urls
  induction urls with
  | nil => intro _; rfl
  | cons v rest ih =>
    intro h
    unfold tryUrls
    cases hv : net v with
    | error e => exact ih (fun u hu => h u (List.mem_cons_of_mem _ hu))
    | ok sb =>
      obtain ⟨status, body⟩ := sb
      have hvf : urlSucceeds net v = false := h v (List.mem_cons_self _ _)
      unfold urlSucceeds at hvf
      simp only [hv] at hvf
      simp only [hvf, Bool.false_eq_true, if_false]
      exact ih (fun u hu => h u (List.mem_cons_of_mem _ hu))

lemma tryUrls_first_success (net : Net) (r : Except String (Nat × String)) :
    ∀ urls u, urls.find? (urlSucceeds net) = some u → tryUrls net r urls = net u := by
  intro urls
  induction urls with
  | nil => intro u h; simp at h
  | cons v rest ih =>
    intro u h
    rw [List.find?] at h
    cases hv : urlSucceeds net v with
    | true =>
      rw [hv] at h
      simp only [Option.some.injEq] at h
      subst h
      unfold urlSucceeds at hv
      unfold tryUrls
      cases hn : net v with
      | error e =>
        simp only [hn] at hv
        simp at hv
      | ok sb =>
        obtain ⟨status, body⟩ := sb
        simp only [hn] at hv
        simp [hn, hv]
    | false =>
      rw [hv] at h
      unfold tryUrls
      cases hn : net v with
      | error e => exact ih u h
      | ok sb =>
        obtain ⟨status, body⟩ := sb
        have hvf := hv
        unfold urlSucceeds at hvf
        simp only [hn] at hvf
        simp only [hvf, Bool.false_eq_true, if_false]
        exact ih u h

lemma getPostsResponse_first_success (net : Net) (parseDoc : String → Node)
    (client : Client) (page : Nat) (u : String)
    (h : firstSuccessUrl net parseDoc client page = some u) :
    getPostsResponse net parseDoc client page = net u
    ∧ urlSucceeds net u = true := by
  have hu : urlSucceeds net u = true := by
    unfold firstSuccessUrl at h
    exact List.find?_some h
  refine ⟨?_, hu⟩
  unfold firstSuccessUrl candidateUrls at h
  unfold getPostsResponse
  cases hp : urlSucceeds net (primaryUrl client page) with
  | true =>
    simp only [List.find?_cons, hp, Option.some.injEq] at h
    subst h
    have hpn := hp
    unfold urlSucceeds at hpn
    cases hn : net (primaryUrl client page) with
    | error e =>
      rw [hn] at hpn
      simp at hpn
    | ok sb =>
      obtain ⟨status, body⟩ := sb
      rw [hn] at hpn
      simp at hpn
      simp [responseFailed, hpn]
  | false =>
    simp only [List.find?_cons, hp] at h
    rw [List.find?_append] at h
    have hpr : responseFailed
        (match net (primaryUrl client page) with
          | .ok r => (.ok r : Except String (Nat × String))
          | .error e => .error ("Failed to fetch posts: " ++ e)) = true := by
      have hpn := hp
      unfold urlSucceeds at hpn
      cases hn : net (primaryUrl client page) with
      | error e => rfl
      | ok sb =>
        obtain ⟨status, body⟩ := sb
        rw [hn] at hpn
        simp at hpn
        simp [responseFailed, hpn]
    simp only [hpr, if_true]
    cases hf : (fallbackUrls client page).find? (urlSucceeds net) with
    | some v =>
      rw [hf] at h
      simp only [Option.or_some, Option.some.injEq] at h
      subst h
      rw [tryUrls_first_success net _ _ _ hf]
      rw [responseFailed_net_false net _ (List.find?_some hf)]
      simp
    | none =>
      rw [hf] at h
      simp only [Option.none_or] at h
      have hall : ∀ a ∈ fallbackUrls client page, urlSucceeds net a = false :=
        fun a ha => Bool.eq_false_iff.mpr (List.find?_eq_none.mp hf a ha)
      rw [tryUrls_none_succeeds net _ _ hall, hpr]
      simp only [if_true]
      cases hd : discover_endpoints net parseDoc client.base_url with
      | error e =>
        rw [hd] at h
        have hde : List.find? (urlSucceeds net) ([] : List String) = some u := h
        simp at hde
      | ok durls =>
        rw [hd] at h
        have hdu : List.find? (urlSucceeds net) durls = some u := h
        exact tryUrls_first_success net _ _ _ hdu

/-- C1 counterexample: with the production client on page 1 the primary
URL (a `.json` URL) answers 404 and the first fallback (`/observations`,
not a `.json` URL) succeeds, yet `current_url` — the URL whose `.json`
shape selects the parser — is the primary URL, not the URL of the first
successful response. -/
theorem get_posts_dispatch_url_counterexample :
    firstSuccessUrl exNet exParseDoc exClient 1 = some exFallback1
  ∧ exFallback1 ≠ primaryUrl exClient 1
  ∧ getPostsCurrentUrl exNet exParseDoc exClient 1 = primaryUrl exClient 1
  ∧ strContains exFallback1 ".json" = false
  ∧ strContains (primaryUrl exClient 1) ".json" = true := by
  refine ⟨?_, ?_, ?_, ?_, ?_⟩
  · set_option maxRecDepth 8000 in decide
  · set_option maxRecDepth 8000 in decide
  · set_option maxRecDepth 8000 in decide
  · set_option maxRecDepth 8000 in decide
  · set_option maxRecDepth 8000 in decide

/-- C1 amended: when the first successful (2xx) response comes from any
candidate URL (primary, fallback, or discovered), that response's *body*
is what is parsed, but JSON-versus-HTML selection is made from the
*primary* URL's `.json` shape (the source sets `current_url` to the
primary URL whenever the final response is successful). -/
theorem get_posts_uses_primary_shape (net : Net)
    (parseJson : String → Except String Json) (parseDoc : String → Node)
    (fragText : String → String) (client : Client) (page : Nat)
    (u : String) (status : Nat) (body : String)
    (h : firstSuccessUrl net parseDoc client page = some u)
    (hu : net u = .ok (status, body)) :
    get_posts net parseJson parseDoc fragText client page
      = (if strContains (primaryUrl client page) ".json" = true then
          (match parseJson body with
            | .error e => .error (.parse ("Failed to parse JSON response: " ++ e))
            | .ok json_value => parse_posts_json fragText json_value)
        else parse_posts_html client.base_url (parseDoc body)) := by
  obtain ⟨hresp, hsucc⟩ := getPostsResponse_first_success net parseDoc client page u h
  have hs : isSuccessStatus status = true := by
    unfold urlSucceeds at hsucc
    rw [hu] at hsucc
    simpa using hsucc
  unfold get_posts getPostsCurrentUrl
  rw [hresp, hu]
  simp [hs]

/-- Witness for `get_posts_uses_primary_shape`: the fallback succeeds with
an HTML body, and the dispatch condition is the primary URL's `.json`
shape. -/
theorem get_posts_uses_primary_shape_witness :
    get_posts exNet exParseJson exParseDoc exFragText exClient 1
      = (if strContains (primaryUrl exClient 1) ".json" = true then
          (match exParseJson "<html></html>" with
            | .error e => .error (.parse ("Failed to parse JSON response: " ++ e))
            | .ok json_value => parse_posts_json exFragText json_value)
        else parse_posts_html exClient.base_url (exParseDoc "<html></html>")) :=
  get_posts_uses_primary_shape exNet exParseJson exParseDoc exFragText exClient 1
    exFallback1 200 "<html></html>"
    (by set_option maxRecDepth 8000 in decide)
    (by set_option maxRecDepth 8000 in decide)

lemma filter_isEmpty_eq_not_isSome {α : Type} (p : α → Bool) (l : List α) :
    (l.filter p).isEmpty = !(l.find? p).isSome := by
  induction l with
  | nil => rfl
  | cons a t ih =>
    rw [List.filter_cons, List.find?_cons]
    cases hpa : p a
    · simpa using ih
    · simp

/-- C9 counterexample: a sign-in page whose login form carries a
*non-hidden* (`type="text"`) authenticity-token input while a csrf-token
meta tag is also present.  The claimed order would skip the non-hidden
input and return the meta token; the code ignores the input's type and
returns the form token. -/
theorem extract_csrf_token_hidden_counterexample :
    extract_csrf_token exSigninDoc = .ok "FORM_TOKEN"
  ∧ claimedCsrfExtraction exSigninDoc = .ok "META_TOKEN"
  ∧ extract_csrf_token exSigninDoc ≠ claimedCsrfExtraction exSigninDoc := by
  refine ⟨?_, ?_, ?_⟩
  · set_option maxRecDepth 8000 in decide
  · set_option maxRecDepth 8000 in decide
  · set_option maxRecDepth 8000 in decide

/-- C9 amended: `extract_csrf_token` tries, in order, (a) the first
authenticity-token input — of any type, not only hidden — of the *first*
form containing the login-identifier field (scanning all forms for it),
provided it carries a `value`; (b) a csrf-token meta tag with `content`;
(c) the *first* authenticity-token input in the document, provided it
carries a `value`; and when all three sources are absent it fails with
"no sign-in form found" exactly when no form containing the
login-identifier field exists, and with the distinct "token not found in
form" error otherwise. -/
theorem extract_csrf_token_matches_amended_order (document : Node) :
    extract_csrf_token document = amendedCsrfExtraction document := by
  unfold extract_csrf_token amendedCsrfExtraction
  simp only [List.filter_head?, filter_isEmpty_eq_not_isSome, Bool.not_not]
  cases hff : ((docSelect document formSel).find?
      fun f => !(elemSelect f loginInputSel).isEmpty) with
  | none =>
    simp only [Option.none_bind]
    cases hfm : ((docSelect document csrfMetaSel).head?.bind
        fun m => m.attr "content") with
    | some t => simp [oor]
    | none =>
      cases hfi : ((docSelect document authTokenInputSel).head?.bind
          fun tok => tok.attr "value") with
      | some t => simp [oor]
      | none => simp [oor]
  | some f =>
    simp only [Option.some_bind]
    cases hft : ((elemSelect f authTokenInputSel).head?.bind
        fun tok => tok.attr "value") with
    | some t => simp [oor]
    | none =>
      cases hfm : ((docSelect document csrfMetaSel).head?.bind
          fun m => m.attr "content") with
      | some t => simp [oor]
      | none =>
        cases hfi : ((docSelect document authTokenInputSel).head?.bind
            fun tok => tok.attr "value") with
        | some t => simp [oor]
        | none => simp [oor]

/-- Witness for `extract_csrf_token_matches_amended_order` at the concrete
sign-in page. -/
theorem extract_csrf_token_matches_amended_order_witness :
    extract_csrf_token exSigninDoc = amendedCsrfExtraction exSigninDoc :=
  extract_csrf_token_matches_amended_order exSigninDoc

lemma photos_filterMap_str (urls : List String) :
    (urls.map Json.str).filterMap photoEntryUrl = urls := by
  induction urls with
  | nil => rfl
  | cons u t ih =>
    rw [List.map_cons, List.filterMap_cons]
    simp only [photoEntryUrl, Json.as_str, oor]
    rw [ih]

lemma photos_filterMap_str_comp (urls : List String) :
    List.filterMap (photoEntryUrl ∘ Json.str) urls = urls := by
  induction urls with
  | nil => rfl
  | cons u t ih =>
    rw [List.filterMap_cons]
    simp only [Function.comp, photoEntryUrl, Json.as_str, oor]
    rw [ih]

lemma parseJsonPost_render (fragText : String → String) (i : Nat) (p : Post) :
    parseJsonPost fragText i (renderJsonPost p) = .ok p := by
  unfold parseJsonPost renderJsonPost parseJsonPostId parseJsonPostTitle
    parseJsonPostAuthor parseJsonPostDate parseJsonPostUrl parseJsonPostPhotoUrls
  simp [Json.get, Json.as_str, Json.as_array, List.lookup, oor,
    photos_filterMap_str, photos_filterMap_str_comp]

lemma parseJsonPostsLoop_render (fragText : String → String) (ps : List Post) :
    ∀ n, parseJsonPostsLoop fragText n (ps.map renderJsonPost) = .ok ps := by
  induction ps with
  | nil => intro n; rfl
  | cons p t ih =>
    intro n
    rw [List.map_cons, parseJsonPostsLoop, parseJsonPost_render, ih (n + 1)]

lemma parse_posts_json_render (fragText : String → String) (ps : List Post) :
    parse_posts_json fragText (renderJsonPosts ps) = .ok ps := by
  unfold parse_posts_json renderJsonPosts findPostsArray
  exact parseJsonPostsLoop_render fragText ps 0

lemma preorder_photoDivNode (u : String) :
    (photoDivNode u).preorder = [photoDivNode u, imgNode u] := rfl

lemma preorderList_renderHtmlPost_children (p : Post) :
    Node.preorderList
      ([Node.elem "div" ["observation-text"] [] [.text p.title],
        .elem "div" ["observation-author"] [] [.text p.author],
        .elem "div" ["observation-date"] [] [.text p.date],
        .elem "a" ["observation-link"] [("href", p.url)] []]
        ++ p.photo_urls.map photoDivNode)
      = [Node.elem "div" ["observation-text"] [] [.text p.title],
         .elem "div" ["observation-author"] [] [.text p.author],
         .elem "div" ["observation-date"] [] [.text p.date],
         .elem "a" ["observation-link"] [("href", p.url)] []]
        ++ Node.preorderList (p.photo_urls.map photoDivNode) := by
  simp [Node.preorderList, Node.preorder]

lemma filter_photoSeg_eq_nil (sel : Selector) (urls : List String)
    (hdiv : ∀ u, matchesSelector (photoDivNode u) sel = false)
    (himg : ∀ u, matchesSelector (imgNode u) sel = false) :
    (Node.preorderList (urls.map photoDivNode)).filter
      (fun n => matchesSelector n sel) = [] := by
  induction urls with
  | nil => rfl
  | cons u t ih =>
    rw [List.map_cons]
    simp [Node.preorderList, preorder_photoDivNode, List.filter_append,
      hdiv, himg, ih]

lemma filter_photoSeg_photoSel (urls : List String) :
    (Node.preorderList (urls.map photoDivNode)).filter
      (fun n => matchesSelector n observationPhotoSel) = urls.map photoDivNode := by
  induction urls with
  | nil => rfl
  | cons u t ih =>
    rw [List.map_cons]
    simp [Node.preorderList, preorder_photoDivNode, List.filter_append, ih,
      show ∀ v, matchesSelector (photoDivNode v) observationPhotoSel = true
        from fun v => rfl,
      show ∀ v, matchesSelector (imgNode v) observationPhotoSel = false
        from fun v => rfl]

lemma elemSelect_render_textSel (p : Post) :
    elemSelect (renderHtmlPost p) observationTextSel
      = [.elem "div" ["observation-text"] [] [.text p.title]] := by
  unfold elemSelect renderHtmlPost Node.childNodes
  rw [preorderList_renderHtmlPost_children, List.filter_append,
    filter_photoSeg_eq_nil observationTextSel _ (fun u => rfl) (fun u => rfl)]
  rfl

lemma elemSelect_render_authorSel (p : Post) :
    elemSelect (renderHtmlPost p) observationAuthorSel
      = [.elem "div" ["observation-author"] [] [.text p.author]] := by
  unfold elemSelect renderHtmlPost Node.childNodes
  rw [preorderList_renderHtmlPost_children, List.filter_append,
    filter_photoSeg_eq_nil observationAuthorSel _ (fun u => rfl) (fun u => rfl)]
  rfl

lemma elemSelect_render_dateSel (p : Post) :
    elemSelect (renderHtmlPost p) observationDateSel
      = [.elem "div" ["observation-date"] [] [.text p.date]] := by
  unfold elemSelect renderHtmlPost Node.childNodes
  rw [preorderList_renderHtmlPost_children, List.filter_append,
    filter_photoSeg_eq_nil observationDateSel _ (fun u => rfl) (fun u => rfl)]
  rfl

lemma elemSelect_render_linkSel (p : Post) :
    elemSelect (renderHtmlPost p) observationLinkSel
      = [.elem "a" ["observation-link"] [("href", p.url)] []] := by
  unfold elemSelect renderHtmlPost Node.childNodes
  rw [preorderList_renderHtmlPost_children, List.filter_append,
    filter_photoSeg_eq_nil observationLinkSel _ (fun u => rfl) (fun u => rfl)]
  rfl

lemma elemSelect_render_photoSel (p : Post) :
    elemSelect (renderHtmlPost p) observationPhotoSel
      = p.photo_urls.map photoDivNode := by
  unfold elemSelect renderHtmlPost Node.childNodes
  rw [preorderList_renderHtmlPost_children, List.filter_append,
    filter_photoSeg_photoSel]
  rfl

lemma elemSelect_photoDiv_imgSel (u : String) :
    elemSelect (photoDivNode u) imgSel = [imgNode u] := rfl

lemma flatMap_photoDiv_imgSel (urls : List String) :
    (urls.map photoDivNode).flatMap (fun a => elemSelect a imgSel)
      = urls.map imgNode := by
  induction urls with
  | nil => rfl
  | cons u t ih =>
    rw [List.map_cons, List.flatMap_cons, elemSelect_photoDiv_imgSel, ih,
      List.map_cons]
    rfl

lemma preorder_render_filter_obsSel (p : Post) :
    ((renderHtmlPost p).preorder).filter (fun n => matchesSelector n observationSel)
      = [renderHtmlPost p] := by
  have h : (renderHtmlPost p).preorder
      = renderHtmlPost p :: Node.preorderList
        ([Node.elem "div" ["observation-text"] [] [.text p.title],
          .elem "div" ["observation-author"] [] [.text p.author],
          .elem "div" ["observation-date"] [] [.text p.date],
          .elem "a" ["observation-link"] [("href", p.url)] []]
          ++ p.photo_urls.map photoDivNode) := rfl
  rw [h, List.filter_cons, preorderList_renderHtmlPost_children,
    List.filter_append,
    filter_photoSeg_eq_nil observationSel _ (fun u => rfl) (fun u => rfl)]
  rfl

lemma preorderList_map_render_filter_obsSel (ps : List Post) :
    (Node.preorderList (ps.map renderHtmlPost)).filter
      (fun n => matchesSelector n observationSel) = ps.map renderHtmlPost := by
  induction ps with
  | nil => rfl
  | cons p t ih =>
    rw [List.map_cons]
    rw [show Node.preorderList (renderHtmlPost p :: t.map renderHtmlPost)
        = (renderHtmlPost p).preorder ++ Node.preorderList (t.map renderHtmlPost)
        from rfl]
    rw [List.filter_append, preorder_render_filter_obsSel, ih]
    rfl

lemma docSelect_renderHtmlPosts_obsSel (ps : List Post) :
    docSelect (renderHtmlPosts ps) observationSel = ps.map renderHtmlPost := by
  unfold docSelect renderHtmlPosts
  rw [show Node.preorder (Node.elem "html" [] [] (ps.map renderHtmlPost))
      = Node.elem "html" [] [] (ps.map renderHtmlPost)
        :: Node.preorderList (ps.map renderHtmlPost) from rfl]
  rw [List.filter_cons, preorderList_map_render_filter_obsSel]
  rfl

lemma filterMap_imgNodes (base_url : String) :
    ∀ urls : List String, (∀ u ∈ urls, strStartsWith u "http" = true) →
    (urls.map imgNode).filterMap
      (fun photo_element =>
        (photo_element.attr "src").map (fun src =>
          if strStartsWith src "http" then src
          else
            let base_domain :=
              if strContains base_url "/schools" then splitHead base_url "/schools"
              else base_url
            base_domain ++ src)) = urls := by
  intro urls
  induction urls with
  | nil => intro _; rfl
  | cons u t ih =>
    intro h
    have hu : strStartsWith u "http" = true := h u (List.mem_cons_self _ _)
    have htail := ih (fun v hv => h v (List.mem_cons_of_mem _ hv))
    simp only [List.map_cons, List.filterMap_cons]
    rw [show (imgNode u).attr "src" = some u from rfl]
    simp [hu, htail]

lemma parseObservation_render (base_url : String) (i : Nat) (p : Post)
    (h1 : strTrim p.title = p.title) (h2 : strTrim p.author = p.author)
    (h3 : strTrim p.date = p.date) (h4 : strStartsWith p.url "http" = true)
    (h5 : ∀ u ∈ p.photo_urls, strStartsWith u "http" = true) :
    parseObservation base_url i (renderHtmlPost p) = p := by
  have hid : (renderHtmlPost p).attr "id" = some p.id := rfl
  simp only [parseObservation, elemSelectDescendant, elemSelect_render_textSel,
    elemSelect_render_authorSel, elemSelect_render_dateSel,
    elemSelect_render_linkSel, elemSelect_render_photoSel,
    flatMap_photoDiv_imgSel, filterMap_imgNodes base_url p.photo_urls h5,
    hid, List.head?]
  simp only [Node.texts, Node.textsList, Node.attr, List.lookup,
    joinSpace, h1, h2, h3, h4, if_true, Option.getD_some, List.append_nil]
  simp [h4]

lemma wfPost_fields (p : Post) (h : wfPost p = true) :
    strTrim p.title = p.title ∧ strTrim p.author = p.author
    ∧ strTrim p.date = p.date ∧ strStartsWith p.url "http" = true
    ∧ ∀ u ∈ p.photo_urls, strStartsWith u "http" = true := by
  unfold wfPost at h
  repeat rw [Bool.and_eq_true] at h
  refine ⟨eq_of_beq h.1.1.1.1, eq_of_beq h.1.1.1.2, eq_of_beq h.1.1.2,
    h.1.2, ?_⟩
  intro u hu
  exact List.all_eq_true.mp h.2 u hu

lemma parseHtmlPostsLoop_render (base_url : String) (ps : List Post) :
    (∀ p ∈ ps, wfPost p = true) →
    ∀ n, parseHtmlPostsLoop base_url n (ps.map renderHtmlPost) = ps := by
  induction ps with
  | nil => intro _ n; rfl
  | cons p t ih =>
    intro h n
    obtain ⟨h1, h2, h3, h4, h5⟩ := wfPost_fields p (h p (List.mem_cons_self _ _))
    rw [List.map_cons, parseHtmlPostsLoop,
      parseObservation_render base_url n p h1 h2 h3 h4 h5,
      ih (fun q hq => h q (List.mem_cons_of_mem _ hq)) (n + 1)]

lemma parse_posts_html_render (base_url : String) (ps : List Post)
    (h : ∀ p ∈ ps, wfPost p = true) :
    parse_posts_html base_url (renderHtmlPosts ps) = .ok ps := by
  unfold parse_posts_html
  rw [docSelect_renderHtmlPosts_obsSel, parseHtmlPostsLoop_render base_url ps h 0]

/-- C6: a JSON payload and an HTML payload encoding the same logical posts
(same ids, titles, authors, dates, urls, and photo-url sequences, rendered
through the spec's canonical field/class vocabularies) parse to
structurally equal `Post` sequences: both parsers recover exactly the
encoded posts.  Well-formedness asks only what any faithful encoding needs:
trim-invariant text fields (the HTML path trims collected text) and
absolute URLs (the HTML path resolves relative ones). -/
theorem dual_format_parser_equivalence (fragText : String → String)
    (base_url : String) (ps : List Post) (h : ∀ p ∈ ps, wfPost p = true) :
    parse_posts_json fragText (renderJsonPosts ps) = .ok ps
  ∧ parse_posts_html base_url (renderHtmlPosts ps) = .ok ps
  ∧ parse_posts_json fragText (renderJsonPosts ps)
      = parse_posts_html base_url (renderHtmlPosts ps) := by
  refine ⟨parse_posts_json_render fragText ps, parse_posts_html_render base_url ps h, ?_⟩
  rw [parse_posts_json_render fragText ps, parse_posts_html_render base_url ps h]

/-- Witness for `dual_format_parser_equivalence`: two posts, one with two
photos and one with one, parsed equally from their JSON and HTML
renderings. -/
theorem dual_format_parser_equivalence_witness :
    parse_posts_json exFragText
        (renderJsonPosts [exDlPost, exEmptyPost])
      = parse_posts_html "https://www.transparentclassroom.com/schools/1"
        (renderHtmlPosts [exDlPost, exEmptyPost])
  ∧ parse_posts_json exFragText (renderJsonPosts [exDlPost, exEmptyPost])
      = .ok [exDlPost, exEmptyPost] :=
  ⟨(dual_format_parser_equivalence exFragText
      "https://www.transparentclassroom.com/schools/1"
      [exDlPost, exEmptyPost] (by decide)).2.2,
   (dual_format_parser_equivalence exFragText
      "https://www.transparentclassroom.com/schools/1"
      [exDlPost, exEmptyPost] (by decide)).1⟩

end TCGrabber
